import Mathlib

/-!
# Velld backup engine: verification of the specification against the code

This file is a shallow embedding, in Lean 4, of the parts of the velld
backup orchestrator that the audited claims are about:

* the status-decision logic of the backup coordinator
  (`executeBackup`, `executeFileBasedBackup` and `uploadToS3Providers`
  in `internal/backup/backup_service.go`),
* the durable log store (`AppendLog`, `flushLogQueue`, `sendLog`),
* the shareable-link service (`GetShareableLink`),
* the S3-provider default flag (`SetDefaultProvider`,
  `CreateS3Provider`, `UpdateS3Provider`),
* the backup-row update (`UpdateBackup`).

Pure control flow is translated function by function; the database is
modelled as explicit list-valued state, and the scheduling of Go's
retry loops is made explicit through outcome lists.
-/

namespace Velld

/-- Backup row status values used by the service
(`"in_progress"`, `"success"`, `"completed_with_errors"`, `"failed"`). -/
inductive BStatus
  | inProgress
  | success
  | completedWithErrors
  | failed
deriving DecidableEq, Repr

/-- A status is terminal when it is one of
`success`, `completed_with_errors`, `failed`. -/
def BStatus.isTerminal : BStatus → Bool
  | .inProgress => false
  | .success => true
  | .completedWithErrors => true
  | .failed => true

/-- `charsHasInit pat s` is true when `pat` is an initial segment of `s`. -/
def charsHasInit : List Char → List Char → Bool
  | [], _ => true
  | _ :: _, [] => false
  | p :: ps, c :: cs => p == c && charsHasInit ps cs

/-- `charsContains s pat` is true when `pat` occurs contiguously in `s`. -/
def charsContains : List Char → List Char → Bool
  | [], pat => pat.isEmpty
  | c :: rest, pat => charsHasInit pat (c :: rest) || charsContains rest pat

/-- Go's `strings.Contains` on the underlying character lists. -/
def goContains (s pat : String) : Bool :=
  charsContains s.data pat.data

/-- Database engine of a connection (`conn.Type` in the Go code).
`unknownEngine` stands for any string outside the supported set, the
`default` arm of the `switch conn.Type` statements. -/
inductive DBEngine
  | postgresql
  | mysql
  | mariadb
  | mongodb
  | redis
  | unknownEngine (s : String)
deriving DecidableEq, Repr

/-- The engines handled by the `switch conn.Type` in `executeBackup`
(all arms except `default`). -/
def DBEngine.supported : DBEngine → Bool
  | .postgresql => true
  | .mysql => true
  | .mariadb => true
  | .mongodb => true
  | .redis => true
  | .unknownEngine _ => false

/-- The engines that stream to stdout in the streaming `executeBackup`
(`postgresql`, `mysql`, `mariadb`); `mongodb` and `redis` fall back to
the file-based path. -/
def DBEngine.streamable : DBEngine → Bool
  | .postgresql => true
  | .mysql => true
  | .mariadb => true
  | _ => false

/-! ## Upload fan-out (`uploadToS3Providers`)

A `Sink` is one entry of the resolved provider list inside
`uploadToS3Providers`: its provider id, display name, and what the
upload attempt for it produces.  `upload = .error e` stands for an
iteration that appends `e` to `uploadErrors` and `continue`s (the Go
code puts there either `"Failed to create S3 client for <name>: …"` or
`"Failed to upload to <name>: …"`); `upload = .ok key` stands for an
iteration that increments `successCount` and records `key`. -/

structure Sink where
  id : String
  name : String
  upload : Except String String
deriving Repr

/-- Whether this sink's upload succeeded. -/
def Sink.isOk (s : Sink) : Bool :=
  match s.upload with
  | .ok _ => true
  | .error _ => false

/-- The object key of a successful sink (`none` for a failed one). -/
def Sink.okKey (s : Sink) : Option String :=
  match s.upload with
  | .ok k => some k
  | .error _ => none

/-- `successCount` at the end of the upload loop. -/
def sinkOkCount (sinks : List Sink) : Nat :=
  (sinks.filter Sink.isOk).length

/-- The `uploadErrors` slice collected by the upload loop. -/
def uploadErrors (sinks : List Sink) : List String :=
  sinks.filterMap fun s =>
    match s.upload with
    | .error e => some e
    | .ok _ => none

/-- The first sink whose upload succeeds — the one whose key and
provider id are stored into `backup.S3ObjectKey` / `backup.S3ProviderID`
(`if backup.S3ObjectKey == nil` inside the loop). -/
def firstOkSink (sinks : List Sink) : Option Sink :=
  sinks.find? Sink.isOk

/-- The error message returned when every upload failed:
`fmt.Errorf("failed to upload to any S3 provider: %s", strings.Join(uploadErrors, "; "))`. -/
def allFailedMsg (sinks : List Sink) : String :=
  "failed to upload to any S3 provider: " ++ String.intercalate "; " (uploadErrors sinks)

/-- The error message returned on partial success:
`fmt.Errorf("partial upload failure: %d/%d succeeded, errors: %s", …)`. -/
def someFailedMsg (sinks : List Sink) : String :=
  "partial upload failure" ++ ": " ++ toString (sinkOkCount sinks) ++ "/"
    ++ toString sinks.length ++ " succeeded, errors: "
    ++ String.intercalate "; " (uploadErrors sinks)

/-- The message returned when the resolved provider list is empty:
`fmt.Errorf("No S3 providers configured")`. -/
def noProvidersMsg : String := "No S3 providers configured"

/-- Observable result of `uploadToS3Providers` (and of the legacy
`uploadToS3IfEnabled`): the Go `error` return (`none` = `nil`), the
primary key/provider written into the `Backup` struct, and the
`backup_s3_providers` rows added via `AddBackupS3Provider`. -/
structure UploadFx where
  err : Option String
  s3ObjectKey : Option String
  s3ProviderId : Option String
  bindings : List (String × String)
deriving DecidableEq, Repr

/-- `uploadToS3Providers` on an already-resolved provider list
(`backup_service.go` lines 987–1097): empty list returns the
`noProvidersMsg` error; otherwise every sink is attempted, the first
success becomes the primary record, every success adds a binding, and
the returned error reflects zero / partial / full success. -/
def uploadToS3Providers (sinks : List Sink) : UploadFx :=
  if sinks.isEmpty then
    { err := some noProvidersMsg, s3ObjectKey := none, s3ProviderId := none, bindings := [] }
  else
    let first := firstOkSink sinks
    let fx : UploadFx :=
      { err := none
        s3ObjectKey := first.bind Sink.okKey
        s3ProviderId := first.map Sink.id
        bindings := (sinks.filter Sink.isOk).filterMap fun s => s.okKey.map fun k => (s.id, k) }
    if sinkOkCount sinks == 0 then
      { fx with err := some (allFailedMsg sinks) }
    else if !(uploadErrors sinks).isEmpty then
      { fx with err := some (someFailedMsg sinks) }
    else
      fx

/-- The sink configuration a run ends up with after provider
resolution inside `uploadToS3Providers`:
* `resolved sinks` — a provider list was assembled (possibly empty,
  which yields the `noProvidersMsg` error);
* `legacy r` — no explicit ids and no default provider, so
  `uploadToS3IfEnabled` runs: `.ok none` is the S3-disabled path
  (returns `nil`, records nothing), `.ok (some k)` is a successful
  legacy upload (sets only `backup.S3ObjectKey`), `.error m` is any of
  its failure returns. -/
inductive SinkCfg
  | resolved (sinks : List Sink)
  | legacy (r : Except String (Option String))
deriving Repr

/-- Result of the upload step for a given `SinkCfg`. -/
def runUpload : SinkCfg → UploadFx
  | .resolved sinks => uploadToS3Providers sinks
  | .legacy (.ok none) =>
      { err := none, s3ObjectKey := none, s3ProviderId := none, bindings := [] }
  | .legacy (.ok (some k)) =>
      { err := none, s3ObjectKey := some k, s3ProviderId := none, bindings := [] }
  | .legacy (.error m) =>
      { err := some m, s3ObjectKey := none, s3ProviderId := none, bindings := [] }

/-- The status chosen by `executeBackup` from the `uploadToS3Providers`
error (`backup_service.go` lines 422–447): `nil` → `success`;
a message containing `"partial upload failure"` → `completed_with_errors`;
else a message containing `"No S3 providers configured"` → `success`;
else (all uploads failed) → `completed_with_errors`. -/
def statusAfterUpload (fx : UploadFx) : BStatus :=
  match fx.err with
  | none => .success
  | some msg =>
    if goContains msg "partial upload failure" then .completedWithErrors
    else if goContains msg "No S3 providers configured" then .success
    else .completedWithErrors

/-! ## Coordinator runs (`executeBackup`, `executeFileBasedBackup`)

A run is observed through the sequence of statuses it hands to
`UpdateBackup` and whether it deletes the local staging file.  The row
starts as `"in_progress"` (`StartBackup` creates it so before calling
`go s.executeBackup(...)`), so the row's final status is the last
written one, or `in_progress` when the run wrote none. -/

/-- What a coordinator run does to the `Backup` row and the staging
file: the statuses passed to `s.backupRepo.UpdateBackup`, in order, and
whether `os.Remove(backup.Path)` ran. -/
structure RunOutcome where
  writes : List BStatus
  fileDeleted : Bool
deriving DecidableEq, Repr

/-- The status the `Backup` row holds after the run: `StartBackup`
created it as `in_progress` and each `UpdateBackup` overwrites it. -/
def rowStatus (o : RunOutcome) : BStatus :=
  o.writes.getLast?.getD .inProgress

/-- Environment of a file-mode run of `executeBackup`
(`backup_service.go` lines 174–471): which of its fallible steps
succeed, in source order.  `dumpOk` is `cmdErr == nil && outputErr == nil`
after `cmd.Wait()`; `statOk` is the `os.Stat(backupPath)` after it;
`cfg` is the sink configuration the later `uploadToS3Providers` call
resolves. -/
structure FileRunEnv where
  tunnelOk : Bool
  engine : DBEngine
  toolFound : Bool
  stdoutPipeOk : Bool
  stderrPipeOk : Bool
  startOk : Bool
  dumpOk : Bool
  statOk : Bool
  cfg : SinkCfg

/-- The tail shared by `executeBackup` after a successful dump and by
`executeFileBasedBackup` (`backup_service.go` lines 407–464,
`executeFileBasedBackup` lines 493–558): stat the staging file —
failure returns with no status write — then upload, decide the status
from the upload error, write it once, and delete the file iff both
`backup.S3ObjectKey != nil` and `backup.S3ProviderID != nil`. -/
def fileBasedTail (statOk : Bool) (cfg : SinkCfg) : RunOutcome :=
  if !statOk then { writes := [], fileDeleted := false }
  else
    let fx := runUpload cfg
    { writes := [statusAfterUpload fx]
      fileDeleted := fx.s3ObjectKey.isSome && fx.s3ProviderId.isSome }

/-- File-mode `executeBackup` (`backup_service.go` lines 174–471).
Every failing early step — SSH tunnel setup, the `default` arm of the
engine switch, a `nil` command (tool not found), either pipe, or
`cmd.Start()` — sends an `[ERROR]` log, closes the log stream and
`return`s without touching the `Backup` row.  A failed dump writes
`failed` once; a successful dump runs `fileBasedTail`. -/
def executeBackupFile (env : FileRunEnv) : RunOutcome :=
  if !env.tunnelOk then { writes := [], fileDeleted := false }
  else if !env.engine.supported then { writes := [], fileDeleted := false }
  else if !env.toolFound then { writes := [], fileDeleted := false }
  else if !env.stdoutPipeOk then { writes := [], fileDeleted := false }
  else if !env.stderrPipeOk then { writes := [], fileDeleted := false }
  else if !env.startOk then { writes := [], fileDeleted := false }
  else if !env.dumpOk then { writes := [.failed], fileDeleted := false }
  else fileBasedTail env.statOk env.cfg

/-- Environment of a streaming run of `executeBackup`
(`internal/backup/backup_service.go`, streaming revision, lines
175–489).  `sinks` is the resolved provider list; the head is streamed
to via `UploadCompressedStream` (its `upload` field is that call's
result) and the tail is copied to by `uploadToAdditionalS3Providers`
(each element's `upload` field is its copy result).  `dumpOk` is
`cmdErr == nil && outputErr == nil && copyErr == nil`.  When the
resolved list is empty, or the engine is `mongodb`/`redis`, the run
falls back to `executeFileBasedBackup`, whose stat outcome and sink
re-resolution are `fallbackStatOk` / `fallbackCfg`. -/
structure StreamRunEnv where
  tunnelOk : Bool
  sinks : List Sink
  engine : DBEngine
  toolFound : Bool
  stdoutPipeOk : Bool
  stderrPipeOk : Bool
  startOk : Bool
  s3ClientOk : Bool
  dumpOk : Bool
  fallbackStatOk : Bool
  fallbackCfg : SinkCfg

/-- Streaming `executeBackup` (streaming revision, lines 175–489).
After the first sink's streamed upload succeeds the run stores the
primary key, copies to the remaining sinks — a failure there only logs
`[WARNING] Some additional S3 uploads failed` — and then
unconditionally sets `backup.Status = "success"` and writes it once.
A dump/copy/first-upload failure writes `failed` once.  Every earlier
failing step (tunnel, unsupported engine, `nil` command, pipes,
`cmd.Start()`, `NewS3Storage` for the first provider) `return`s
without touching the row. -/
def executeBackupStreaming (env : StreamRunEnv) : RunOutcome :=
  if !env.tunnelOk then { writes := [], fileDeleted := false }
  else
    match env.sinks with
    | [] => fileBasedTail env.fallbackStatOk env.fallbackCfg
    | first :: _rest =>
      if env.engine == .mongodb || env.engine == .redis then
        fileBasedTail env.fallbackStatOk env.fallbackCfg
      else if !env.engine.streamable then { writes := [], fileDeleted := false }
      else if !env.toolFound then { writes := [], fileDeleted := false }
      else if !env.stdoutPipeOk then { writes := [], fileDeleted := false }
      else if !env.stderrPipeOk then { writes := [], fileDeleted := false }
      else if !env.startOk then { writes := [], fileDeleted := false }
      else if !env.s3ClientOk then { writes := [], fileDeleted := false }
      else if !(env.dumpOk && first.isOk) then { writes := [.failed], fileDeleted := false }
      else { writes := [.success], fileDeleted := false }

/-! ## Durable log store (`AppendLog`, `flushLogQueue`, `sendLog`)

`AppendLog` runs under a process-wide mutex, so its transactions are
modelled sequentially.  A transaction attempt can commit, fail a step
with SQLite's busy error (`"database is locked"` or
`"database is locked (5)"` — the only messages the retry ladder
matches on), or fail with any other error. -/

/-- Outcome of one transaction attempt inside `AppendLog`: `ok` means
`Begin`, the `MAX(line_number)` query, the batch `INSERT` and `Commit`
all succeed; `busy`/`busyV5` mean one of those steps fails with
`"database is locked"` / `"database is locked (5)"`; `fail m` is any
other error. -/
inductive TxOutcome
  | ok
  | busy
  | busyV5
  | fail (msg : String)
deriving Repr

/-- One row of the `backup_logs` table for a fixed backup id. -/
structure LogRow where
  line : String
  num : Nat
deriving DecidableEq, Repr

/-- `SELECT COALESCE(MAX(line_number), 0) FROM backup_logs WHERE backup_id = $1`. -/
def maxLineNum (rows : List LogRow) : Nat :=
  rows.foldl (fun m r => max m r.num) 0

/-- Split a character list at every occurrence of `sep`, keeping empty
segments — the behaviour of Go's `strings.Split` for a one-character
separator (`[""]` on empty input). -/
def splitOnChar (sep : Char) : List Char → List (List Char)
  | [] => [[]]
  | c :: rest =>
    let r := splitOnChar sep rest
    if c == sep then [] :: r
    else
      match r with
      | [] => [[c]]
      | h :: t => (c :: h) :: t

/-- `lines := strings.Split(logLine, "\n")` followed by the filter that
keeps only `line != ""` (the `validLines` slice). -/
def validLines (logLine : String) : List String :=
  ((splitOnChar '\n' logLine.data).map fun cs => String.mk cs).filter (fun l => l ≠ "")

/-- The batch `INSERT`: `validLines[i]` gets
`lineNumber := startLineNumber + int64(i)`. -/
def numberLines (start : Nat) : List String → List LogRow
  | [] => []
  | l :: ls => { line := l, num := start } :: numberLines (start + 1) ls

/-- `delay := baseDelay * time.Duration(1<<uint(attempt))` with
`baseDelay = 10 * time.Millisecond`, in milliseconds. -/
def retryDelay (attempt : Nat) : Nat := 10 * 2 ^ attempt

/-- `maxRetries := 5` in `AppendLog`. -/
def maxRetries : Nat := 5

/-- Observable behaviour of one `AppendLog` call: the `backup_logs`
rows for this backup afterwards, the sleeps performed between retries
(in ms, in order), the number of transaction attempts, and the Go
error return (`none` = `nil`). -/
structure AppendResult where
  rows : List LogRow
  delays : List Nat
  attempts : Nat
  ret : Option String
deriving DecidableEq, Repr

/-- A committing attempt: read the max line number, drop empty lines —
if none remain, roll back and return `nil` — else insert the batch
numbered contiguously from `max+1`. -/
def appendLogCommit (rows : List LogRow) (valid : List String) : AppendResult :=
  if valid.isEmpty then
    { rows := rows, delays := [], attempts := 1, ret := none }
  else
    { rows := rows ++ numberLines (maxLineNum rows + 1) valid
      delays := [], attempts := 1, ret := none }

/-- The retry loop of `AppendLog` from a given attempt index, driven by
the list of per-attempt outcomes (exhausting the list means the
remaining attempts commit).  On a busy error with
`attempt < maxRetries-1` the code sleeps `retryDelay attempt` and
continues; on the last attempt the raw busy error is returned (the
`"failed to append log after %d retries"` line below the loop is
unreachable, since every `continue` is guarded by
`attempt < maxRetries-1`). -/
def appendLogFrom : Nat → List TxOutcome → List LogRow → List String → AppendResult
  | _, [], rows, valid => appendLogCommit rows valid
  | attempt, outcome :: restSched, rows, valid =>
    match outcome with
    | .ok => appendLogCommit rows valid
    | .busy =>
      if attempt < maxRetries - 1 then
        let r := appendLogFrom (attempt + 1) restSched rows valid
        { r with delays := retryDelay attempt :: r.delays, attempts := r.attempts + 1 }
      else
        { rows := rows, delays := [], attempts := 1, ret := some "database is locked" }
    | .busyV5 =>
      if attempt < maxRetries - 1 then
        let r := appendLogFrom (attempt + 1) restSched rows valid
        { r with delays := retryDelay attempt :: r.delays, attempts := r.attempts + 1 }
      else
        { rows := rows, delays := [], attempts := 1, ret := some "database is locked (5)" }
    | .fail msg =>
      { rows := rows, delays := [], attempts := 1, ret := some msg }

/-- `AppendLog(backupID, logLine)` for one backup id, with `sched`
giving the outcome of each successive transaction attempt. -/
def appendLogGo (rows : List LogRow) (logLine : String) (sched : List TxOutcome) : AppendResult :=
  appendLogFrom 0 sched rows (validLines logLine)

/-- `sendLog` always appends the message to the per-backup write queue
(`s.logWriteQueue[backupID] = append(..., message)`), whatever the
message is — the live channel may drop it, the queue never does. -/
def sendLogQueue (queue : List String) (message : String) : List String :=
  queue ++ [message]

/-- Per-backup state seen by `flushLogQueue`: the in-memory queue of
emitted lines and the durable `backup_logs` rows. -/
structure FlushState where
  queue : List String
  rows : List LogRow
deriving DecidableEq, Repr

/-- Result of one synchronous `flushLogQueue` call.  On an error whose
text contains `"database is locked"` the taken lines are appended back
to the queue and a goroutine is spawned that, after 100 ms, appends
them once more and flushes again — `retryScheduled` records that
pending work. -/
structure FlushResult where
  queue : List String
  rows : List LogRow
  retryScheduled : Option (List String)
deriving DecidableEq, Repr

/-- `flushLogQueue` (`backup_service.go` lines 721–764): take and clear
the queue, join with `"\n"`, `AppendLog`; on a `nil` return done; on an
error containing `"database is locked"` re-queue the lines and schedule
the delayed retry; on any other error only print a warning (the lines
are gone from the queue). -/
def flushLogQueueGo (st : FlushState) (sched : List TxOutcome) : FlushResult :=
  if st.queue.isEmpty then
    { queue := st.queue, rows := st.rows, retryScheduled := none }
  else
    let logs := st.queue
    let combined := String.intercalate "\n" logs
    let r := appendLogGo st.rows combined sched
    match r.ret with
    | none => { queue := [], rows := r.rows, retryScheduled := none }
    | some e =>
      if goContains e "database is locked" then
        { queue := [] ++ logs, rows := r.rows, retryScheduled := some logs }
      else
        { queue := [], rows := r.rows, retryScheduled := none }

/-! ## Shareable links (`GetShareableLink`)

The `shareable_links` table, with `expires_at` modelled as a number on
the same clock as `now` (the stored RFC3339 string parses back to the
instant it was formatted from). -/

/-- One `shareable_links` row (non-null `s3_provider_id`, as scanned
by `GetShareableLink`). -/
structure ShareRow where
  token : String
  backupId : String
  providerId : String
  expiresAt : Nat
  accessCount : Nat
deriving DecidableEq, Repr

/-- `QueryRow(... WHERE token = $1)`: the first matching row. -/
def findLink (st : List ShareRow) (tok : String) : Option ShareRow :=
  st.find? (fun r => r.token = tok)

/-- `GetShareableLink(token)` at clock value `now`
(`backup repository`, lines 871–900): unknown token → row-scan error;
`time.Now().After(expiresAt)` → `"link has expired"`, nothing written;
otherwise `UPDATE shareable_links SET access_count = access_count + 1
WHERE token = $1` and return the stored pair. -/
def getShareableLink (now : Nat) (st : List ShareRow) (tok : String) :
    Except String (String × String) × List ShareRow :=
  match findLink st tok with
  | none => (.error "sql: no rows in result set", st)
  | some r =>
    if r.expiresAt < now then (.error "link has expired", st)
    else
      (.ok (r.backupId, r.providerId),
       st.map fun q =>
         if q.token = tok then { q with accessCount := q.accessCount + 1 } else q)

/-- The state after one resolve call. -/
def resolveStep (st : List ShareRow) (c : String × Nat) : List ShareRow :=
  (getShareableLink c.2 st c.1).2

/-- Whether one resolve call succeeds. -/
def resolveOk (st : List ShareRow) (c : String × Nat) : Bool :=
  match (getShareableLink c.2 st c.1).1 with
  | .ok _ => true
  | .error _ => false

/-- The state after a sequence of resolve calls `(token, now)`. -/
def runResolves (st : List ShareRow) : List (String × Nat) → List ShareRow
  | [] => st
  | c :: rest => runResolves (resolveStep st c) rest

/-- How many calls of the sequence resolve successfully on token
`tok`, threading the state like `runResolves` does. -/
def okResolveCount (st : List ShareRow) (tok : String) : List (String × Nat) → Nat
  | [] => 0
  | c :: rest =>
    (if c.1 = tok ∧ resolveOk st c then 1 else 0)
      + okResolveCount (resolveStep st c) tok rest

/-! ## S3 provider default flag

The `s3_providers` table, reduced to the columns the default-flag
invariant is about.  `id` is the `TEXT PRIMARY KEY` of the migration,
so an `INSERT` with an existing id errors and writes nothing. -/

/-- One `s3_providers` row. -/
structure ProvRow where
  id : String
  userId : String
  isDefault : Bool
deriving DecidableEq, Repr

/-- `UPDATE s3_providers SET is_default = 0 WHERE user_id = $1`. -/
def clearDefaults (st : List ProvRow) (u : String) : List ProvRow :=
  st.map fun p => if p.userId = u then { p with isDefault := false } else p

/-- `UPDATE s3_providers SET is_default = <b> WHERE id = <pid> AND
user_id = <u>` — the shape of both the second statement of
`SetDefaultProvider` and the write-back of `UpdateS3Provider`. -/
def setFlagOn (pid u : String) (b : Bool) (st : List ProvRow) : List ProvRow :=
  st.map fun p => if p.id = pid ∧ p.userId = u then { p with isDefault := b } else p

/-- `SetDefaultProvider(userID, providerID)`: clear the user's
defaults, then `UPDATE ... SET is_default = 1 WHERE id = $2 AND
user_id = $3`. -/
def setDefaultProvider (st : List ProvRow) (u pid : String) : List ProvRow :=
  setFlagOn pid u true (clearDefaults st u)

/-- `S3ProviderService.CreateS3Provider`: when the request marks the
provider default, first `SetDefaultProvider(userID, "")` (which only
clears, no row has the empty id); then `INSERT` the new row — a
primary-key conflict errors and inserts nothing. -/
def createS3Provider (st : List ProvRow) (u newId : String) (isDefault : Bool) : List ProvRow :=
  let st1 := if isDefault then setDefaultProvider st u "" else st
  if newId ∈ st1.map ProvRow.id then st1
  else st1 ++ [{ id := newId, userId := u, isDefault := isDefault }]

/-- `S3ProviderService.UpdateS3Provider`: read the row (`WHERE id AND
user_id`; a miss errors and writes nothing); when the request sets the
default flag and the row was not default, `SetDefaultProvider(userID,
"")` first; then write the row back with the resolved flag. -/
def updateS3Provider (st : List ProvRow) (u pid : String) (reqDefault : Option Bool) :
    List ProvRow :=
  match st.find? (fun p => p.id = pid ∧ p.userId = u) with
  | none => st
  | some existing =>
    let st1 :=
      match reqDefault with
      | some d => if d ∧ !existing.isDefault then setDefaultProvider st u "" else st
      | none => st
    let newDef :=
      match reqDefault with
      | some d => d
      | none => existing.isDefault
    setFlagOn pid u newDef st1

/-- The provider operations the invariant quantifies over. -/
inductive ProvOp
  | create (u newId : String) (isDefault : Bool)
  | update (u pid : String) (reqDefault : Option Bool)
  | setDefault (u pid : String)
deriving Repr

/-- Apply one operation to the table. -/
def applyProvOp (st : List ProvRow) : ProvOp → List ProvRow
  | .create u newId isDefault => createS3Provider st u newId isDefault
  | .update u pid reqDefault => updateS3Provider st u pid reqDefault
  | .setDefault u pid => setDefaultProvider st u pid

/-- `uuid.New().String()` is never empty: the only well-formedness the
invariant needs from an operation. -/
def ProvOp.wf : ProvOp → Prop
  | .create _ newId _ => newId ≠ ""
  | _ => True

/-- Number of default providers a user has. -/
def defaultCount (st : List ProvRow) (u : String) : Nat :=
  (st.filter fun p => p.userId = u ∧ p.isDefault).length

/-- Number of rows carrying a given id (reads only the id column). -/
def countPid (st : List ProvRow) (pid : String) : Nat :=
  ((st.map ProvRow.id).filter fun x => x = pid).length

/-- Table well-formedness: primary-key uniqueness, no empty id (ids
are uuids), and at most one default per owner. -/
def ProvTableWf (st : List ProvRow) : Prop :=
  (st.map ProvRow.id).Nodup ∧ "" ∉ st.map ProvRow.id ∧ ∀ u, defaultCount st u ≤ 1

/-! ## Backup row update (`UpdateBackup`) -/

/-- The columns of a `backups` row that `UpdateBackup` can touch. -/
structure BackupRow where
  status : BStatus
  path : String
  s3ObjectKey : Option String
  s3ProviderId : Option String
  size : Int
  logs : Option String
  startedTime : String
  completedTime : Option String
  updatedAt : String
deriving DecidableEq, Repr

/-- The in-memory `Backup` struct passed to `UpdateBackup` (the fields
the two `UPDATE` statements read). -/
structure BackupPatch where
  status : BStatus
  path : String
  s3ObjectKey : Option String
  s3ProviderId : Option String
  size : Int
  logs : Option String
  startedTime : String
  completedTime : Option String
deriving DecidableEq, Repr

/-- `UpdateBackup` (`backup repository`, lines 232–288): when
`backup.Logs != nil && *backup.Logs != ""` the first `UPDATE` runs and
writes the logs column too; otherwise the second `UPDATE` runs and
leaves the logs column out entirely.  Both set `updated_at` to the
current time. -/
def updateBackupGo (row : BackupRow) (b : BackupPatch) (now : String) : BackupRow :=
  let writeLogs : Bool :=
    match b.logs with
    | some l => l != ""
    | none => false
  if writeLogs then
    { status := b.status, path := b.path, s3ObjectKey := b.s3ObjectKey
      s3ProviderId := b.s3ProviderId, size := b.size, logs := b.logs
      startedTime := b.startedTime, completedTime := b.completedTime, updatedAt := now }
  else
    { status := b.status, path := b.path, s3ObjectKey := b.s3ObjectKey
      s3ProviderId := b.s3ProviderId, size := b.size, logs := row.logs
      startedTime := b.startedTime, completedTime := b.completedTime, updatedAt := now }

/-! ## Derived notions used by the statements -/

/-- The lifecycle property the specification asserts of one run: the
row is set to a terminal status, exactly once. -/
def reachesExactlyOneTerminal (o : RunOutcome) : Prop :=
  ∃ st, o.writes = [st] ∧ st.isTerminal = true

/-- What actually holds of every run: at most one status write, and
any written status is terminal. -/
def atMostOneTerminalWrite (o : RunOutcome) : Prop :=
  o.writes = [] ∨ reachesExactlyOneTerminal o

/-- A sequence of failure-free `AppendLog` batches against the
`backup_logs` rows of one backup. -/
def applyBatches (rows : List LogRow) (batches : List String) : List LogRow :=
  batches.foldl (fun rs b => (appendLogGo rs b []).rows) rows

/-- All operations of a sequence are well-formed. -/
def ProvOpsWf (ops : List ProvOp) : Prop :=
  ∀ op ∈ ops, op.wf

/-! ## Helper lemmas -/

theorem charsHasInit_append (p r : List Char) : charsHasInit p (p ++ r) = true := by
  induction p with
  | nil => rfl
  | cons c cs ih => simp [charsHasInit, ih]

theorem charsContains_append_left (x y : List Char) (h : x ≠ []) :
    charsContains (x ++ y) x = true := by
  cases x with
  | nil => exact absurd rfl h
  | cons c cs =>
    have hpre : charsHasInit (c :: cs) ((c :: cs) ++ y) = true := charsHasInit_append _ _
    simp only [List.cons_append] at hpre ⊢
    simp [charsContains, hpre]

theorem string_data_ne_nil (s : String) (h : s ≠ "") : s.data ≠ [] := by
  intro hd
  apply h
  cases s with
  | mk l =>
    have hl : l = [] := hd
    subst hl
    rfl

theorem goContains_append (pat suffix : String) (h : pat ≠ "") :
    goContains (pat ++ suffix) pat = true := by
  unfold goContains
  rw [String.data_append]
  exact charsContains_append_left _ _ (string_data_ne_nil pat h)

theorem statusAfterUpload_terminal (fx : UploadFx) :
    (statusAfterUpload fx).isTerminal = true := by
  unfold statusAfterUpload
  cases fx.err with
  | none => rfl
  | some msg =>
    by_cases h1 : goContains msg "partial upload failure" = true
    · simp [h1, BStatus.isTerminal]
    · by_cases h2 : goContains msg "No S3 providers configured" = true
      · simp [h1, h2, BStatus.isTerminal]
      · simp [h1, h2, BStatus.isTerminal]

theorem sinkOkCount_le (sinks : List Sink) : sinkOkCount sinks ≤ sinks.length :=
  List.length_filter_le _ _

theorem uploadErrors_nil_iff (sinks : List Sink) :
    uploadErrors sinks = [] ↔ sinkOkCount sinks = sinks.length := by
  induction sinks with
  | nil => simp [uploadErrors, sinkOkCount]
  | cons s rest ih =>
    have hle := sinkOkCount_le rest
    cases hu : s.upload with
    | ok k =>
      have h1 : uploadErrors (s :: rest) = uploadErrors rest := by
        simp [uploadErrors, List.filterMap_cons, hu]
      have h2 : sinkOkCount (s :: rest) = sinkOkCount rest + 1 := by
        simp [sinkOkCount, List.filter_cons, Sink.isOk, hu]
      rw [h1, h2, List.length_cons, ih]
      omega
    | error e =>
      have h1 : uploadErrors (s :: rest) = e :: uploadErrors rest := by
        simp [uploadErrors, List.filterMap_cons, hu]
      have h2 : sinkOkCount (s :: rest) = sinkOkCount rest := by
        simp [sinkOkCount, List.filter_cons, Sink.isOk, hu]
      rw [h1, h2, List.length_cons]
      constructor
      · intro hc
        cases hc
      · intro hc
        exfalso
        omega

theorem numberLines_map_line (ls : List String) : ∀ s, (numberLines s ls).map LogRow.line = ls := by
  induction ls with
  | nil => intro s; rfl
  | cons l rest ih => intro s; simp [numberLines, ih]

theorem numberLines_map_num (ls : List String) :
    ∀ s, (numberLines s ls).map LogRow.num = List.range' s ls.length := by
  induction ls with
  | nil => intro s; rfl
  | cons l rest ih => intro s; simp [numberLines, ih, List.range']

/-! ## C9 — `UpdateBackup` leaves the logs column alone -/

/-- C9: when the caller supplies no log text (`Logs` nil or the empty
string), `UpdateBackup` leaves the stored logs column unchanged and
writes only status, path, object key, provider id, size, the
timestamps and `updated_at`. -/
theorem updateBackup_preserves_logs (row : BackupRow) (b : BackupPatch) (now : String)
    (h : b.logs = none ∨ b.logs = some "") :
    (updateBackupGo row b now).logs = row.logs ∧
    (updateBackupGo row b now).status = b.status ∧
    (updateBackupGo row b now).path = b.path ∧
    (updateBackupGo row b now).s3ObjectKey = b.s3ObjectKey ∧
    (updateBackupGo row b now).s3ProviderId = b.s3ProviderId ∧
    (updateBackupGo row b now).size = b.size ∧
    (updateBackupGo row b now).startedTime = b.startedTime ∧
    (updateBackupGo row b now).completedTime = b.completedTime ∧
    (updateBackupGo row b now).updatedAt = now := by
  rcases h with h | h <;> simp [updateBackupGo, h]

/-- Witness for C9 at a concrete row and patch. -/
theorem updateBackup_preserves_logs_witness :
    (updateBackupGo
      { status := .inProgress, path := "/p", s3ObjectKey := none, s3ProviderId := none,
        size := 0, logs := some "keep", startedTime := "t0", completedTime := none,
        updatedAt := "t0" }
      { status := .success, path := "/p", s3ObjectKey := none, s3ProviderId := none,
        size := 5, logs := none, startedTime := "t0", completedTime := some "t1" }
      "t2").logs = some "keep" :=
  (updateBackup_preserves_logs _ _ _ (Or.inl rfl)).1

/-! ## C10 — the durable append discards empty lines -/

/-- C10: `AppendLog` stores exactly the non-empty lines of the batch:
a batch consisting only of empty lines inserts nothing (and still
returns `nil`), even though `sendLog` accepts and queues the empty
string. -/
theorem appendLog_skips_empty_lines :
    (∀ (rows : List LogRow) (b : String),
        ((appendLogGo rows b []).rows).map LogRow.line
          = rows.map LogRow.line ++ validLines b) ∧
    (∀ (rows : List LogRow) (b : String), validLines b = [] →
        (appendLogGo rows b []).rows = rows ∧ (appendLogGo rows b []).ret = none) ∧
    (∀ (queue : List String), sendLogQueue queue "" = queue ++ [""]) := by
  refine ⟨fun rows b => ?_, fun rows b h => ?_, fun queue => rfl⟩
  · show ((appendLogCommit rows (validLines b)).rows).map LogRow.line = _
    cases h : validLines b with
    | nil => simp [appendLogCommit, h]
    | cons l rest =>
      simp [appendLogCommit, h, numberLines_map_line]
  · constructor
    · show (appendLogCommit rows (validLines b)).rows = rows
      simp [appendLogCommit, h]
    · show (appendLogCommit rows (validLines b)).ret = none
      simp [appendLogCommit, h]

/-- Witness for C10: a batch of two empty lines stores nothing. -/
theorem appendLog_skips_empty_lines_witness :
    (appendLogGo [] "\n" []).rows = [] ∧ (appendLogGo [] "\n" []).ret = none :=
  appendLog_skips_empty_lines.2.1 [] "\n" (by decide)

/-! ## C5 — line numbers are `1, 2, …, n` -/

theorem numberLines_length (ls : List String) : ∀ s, (numberLines s ls).length = ls.length := by
  induction ls with
  | nil => intro s; rfl
  | cons l rest ih => intro s; simp [numberLines, ih]

theorem foldl_max_range (m : Nat) : ∀ a : Nat, List.foldl max a (List.range' (a + 1) m) = a + m := by
  induction m with
  | zero => intro a; simp [List.range']
  | succ k ih =>
    intro a
    have hmax : max a (a + 1) = a + 1 := by omega
    simp only [List.range', List.foldl_cons, hmax]
    have := ih (a + 1)
    simpa [Nat.add_assoc, Nat.add_comm, Nat.add_left_comm] using this

theorem maxLineNum_eq (rows : List LogRow)
    (h : rows.map LogRow.num = List.range' 1 rows.length) :
    maxLineNum rows = rows.length := by
  unfold maxLineNum
  have hfold := List.foldl_map LogRow.num (fun (m : Nat) (n : Nat) => max m n) rows 0
  rw [show (fun (m : Nat) (r : LogRow) => max m r.num)
        = (fun m r => max m (LogRow.num r)) from rfl, ← hfold, h]
  have := foldl_max_range rows.length 0
  simpa using this

theorem appendLog_rows_eq (rows : List LogRow) (b : String) :
    (appendLogGo rows b []).rows
      = rows ++ numberLines (maxLineNum rows + 1) (validLines b) := by
  show (appendLogCommit rows (validLines b)).rows = _
  cases h : validLines b with
  | nil => simp [appendLogCommit, h, numberLines]
  | cons l rest => simp [appendLogCommit, h]

theorem contiguous_step (rows : List LogRow) (b : String)
    (h : rows.map LogRow.num = List.range' 1 rows.length) :
    ((appendLogGo rows b []).rows).map LogRow.num
      = List.range' 1 ((appendLogGo rows b []).rows).length := by
  rw [appendLog_rows_eq, List.map_append, h, numberLines_map_num, maxLineNum_eq rows h,
    List.length_append, numberLines_length]
  have := List.range'_append 1 rows.length (validLines b).length 1
  simp only [Nat.one_mul] at this
  rw [show 1 + rows.length = rows.length + 1 from Nat.add_comm 1 rows.length] at this
  rw [this, Nat.add_comm (validLines b).length rows.length]

theorem contiguous_fold (batches : List String) :
    ∀ rows : List LogRow, rows.map LogRow.num = List.range' 1 rows.length →
      (applyBatches rows batches).map LogRow.num
        = List.range' 1 (applyBatches rows batches).length := by
  induction batches with
  | nil => intro rows h; exact h
  | cons b rest ih =>
    intro rows h
    show (applyBatches ((appendLogGo rows b []).rows) rest).map LogRow.num = _
    exact ih _ (contiguous_step rows b h)

/-- C5: every `AppendLog` batch is numbered contiguously starting at
the current maximum plus one, so after any sequence of batches the
stored line numbers for one backup are exactly `1, 2, …, n`. -/
theorem appendLog_line_numbers :
    (∀ (rows : List LogRow) (b : String),
        (appendLogGo rows b []).rows
          = rows ++ numberLines (maxLineNum rows + 1) (validLines b)) ∧
    (∀ batches : List String,
        (applyBatches [] batches).map LogRow.num
          = List.range' 1 (applyBatches [] batches).length) := by
  refine ⟨appendLog_rows_eq, fun batches => ?_⟩
  exact contiguous_fold batches [] (by simp [List.range'])

/-! ## C4 — busy-retry ladder and re-queue on exhaustion -/

/-- C4: a flush whose five `AppendLog` transaction attempts all fail
busy performs exactly the 10/20/40/80 ms exponential backoff, returns
the raw `"database is locked"` error, and `flushLogQueue` then puts
every taken line back on the queue (and schedules the delayed retry) —
nothing is dropped from the durable path. -/
theorem appendLog_retry_requeue (st : FlushState) (h : st.queue ≠ []) :
    (appendLogGo st.rows (String.intercalate "\n" st.queue)
        [.busy, .busy, .busy, .busy, .busy]).attempts = 5 ∧
    (appendLogGo st.rows (String.intercalate "\n" st.queue)
        [.busy, .busy, .busy, .busy, .busy]).delays = [10, 20, 40, 80] ∧
    (appendLogGo st.rows (String.intercalate "\n" st.queue)
        [.busy, .busy, .busy, .busy, .busy]).ret = some "database is locked" ∧
    (appendLogGo st.rows (String.intercalate "\n" st.queue)
        [.busy, .busy, .busy, .busy, .busy]).rows = st.rows ∧
    (flushLogQueueGo st [.busy, .busy, .busy, .busy, .busy]).queue = st.queue ∧
    (flushLogQueueGo st [.busy, .busy, .busy, .busy, .busy]).rows = st.rows ∧
    (flushLogQueueGo st [.busy, .busy, .busy, .busy, .busy]).retryScheduled = some st.queue := by
  obtain ⟨queue, rows⟩ := st
  cases queue with
  | nil => exact absurd rfl h
  | cons q qs => exact ⟨rfl, rfl, rfl, rfl, rfl, rfl, rfl⟩

/-- Witness for C4 at a one-line queue. -/
theorem appendLog_retry_requeue_witness :
    (flushLogQueueGo { queue := ["line1"], rows := [] }
        [.busy, .busy, .busy, .busy, .busy]).retryScheduled = some ["line1"] :=
  (appendLog_retry_requeue { queue := ["line1"], rows := [] }
    (by decide)).2.2.2.2.2.2

/-! ## C7 — zero sinks is not an error; staging file retained -/

/-- C7: a run with zero configured sinks ends `success` with the local
file retained (both on the resolved-empty path and on the
legacy-S3-disabled path), and on every run the file is deleted only
when a primary object key and provider id were recorded. -/
theorem zero_sinks_success_retained :
    (∀ env : FileRunEnv, env.tunnelOk = true → env.engine.supported = true →
        env.toolFound = true → env.stdoutPipeOk = true → env.stderrPipeOk = true →
        env.startOk = true → env.dumpOk = true → env.statOk = true →
        env.cfg = .resolved [] →
        executeBackupFile env = { writes := [.success], fileDeleted := false }) ∧
    (∀ env : FileRunEnv, env.tunnelOk = true → env.engine.supported = true →
        env.toolFound = true → env.stdoutPipeOk = true → env.stderrPipeOk = true →
        env.startOk = true → env.dumpOk = true → env.statOk = true →
        env.cfg = .legacy (.ok none) →
        executeBackupFile env = { writes := [.success], fileDeleted := false }) ∧
    (∀ env : FileRunEnv, (executeBackupFile env).fileDeleted = true →
        (runUpload env.cfg).s3ObjectKey.isSome = true ∧
        (runUpload env.cfg).s3ProviderId.isSome = true) := by
  refine ⟨?_, ?_, ?_⟩
  · intro env h1 h2 h3 h4 h5 h6 h7 h8 h9
    simp only [executeBackupFile, h1, h2, h3, h4, h5, h6, h7, h8, h9, Bool.not_true,
      Bool.false_eq_true, if_false]
    decide
  · intro env h1 h2 h3 h4 h5 h6 h7 h8 h9
    simp only [executeBackupFile, h1, h2, h3, h4, h5, h6, h7, h8, h9, Bool.not_true,
      Bool.false_eq_true, if_false]
    decide
  · intro env hdel
    unfold executeBackupFile fileBasedTail at hdel
    split_ifs at hdel
    all_goals simp at hdel
    all_goals exact hdel

/-- Witness for C7 at a concrete zero-sink run. -/
theorem zero_sinks_success_retained_witness :
    executeBackupFile
        { tunnelOk := true, engine := .postgresql, toolFound := true, stdoutPipeOk := true,
          stderrPipeOk := true, startOk := true, dumpOk := true, statOk := true,
          cfg := .resolved [] }
      = { writes := [.success], fileDeleted := false } :=
  zero_sinks_success_retained.1
    { tunnelOk := true, engine := .postgresql, toolFound := true, stdoutPipeOk := true,
      stderrPipeOk := true, startOk := true, dumpOk := true, statOk := true,
      cfg := .resolved [] }
    rfl rfl rfl rfl rfl rfl rfl rfl rfl

/-! ## C1 — does every run reach exactly one terminal status? -/

theorem fileBasedTail_amotw (so : Bool) (cfg : SinkCfg) :
    atMostOneTerminalWrite (fileBasedTail so cfg) := by
  unfold fileBasedTail
  split_ifs with hs
  · exact Or.inl rfl
  · exact Or.inr ⟨_, rfl, statusAfterUpload_terminal _⟩

/-- C1 counterexample: when the SSH tunnel setup fails, `executeBackup`
logs, closes the log stream and returns — no status is ever written, so
the row stays `in_progress` and never reaches a terminal status. -/
theorem backup_terminal_once_counterexample :
    ¬ reachesExactlyOneTerminal (executeBackupFile
        { tunnelOk := false, engine := .postgresql, toolFound := true, stdoutPipeOk := true,
          stderrPipeOk := true, startOk := true, dumpOk := true, statOk := true,
          cfg := .resolved [] }) ∧
    rowStatus (executeBackupFile
        { tunnelOk := false, engine := .postgresql, toolFound := true, stdoutPipeOk := true,
          stderrPipeOk := true, startOk := true, dumpOk := true, statOk := true,
          cfg := .resolved [] }) = .inProgress := by
  constructor
  · rintro ⟨st, hw, -⟩
    simp [executeBackupFile] at hw
  · rfl

/-- C1 amended: every run writes a terminal status at most once (and a
written status is always terminal and never overwritten afterwards),
but the early failure paths — tunnel setup, unsupported engine,
missing tool, pipe creation, `cmd.Start()`, a failed stat, a failed
`NewS3Storage` — write none and leave the row `in_progress`. -/
theorem backup_terminal_at_most_once (env : FileRunEnv) (senv : StreamRunEnv) :
    atMostOneTerminalWrite (executeBackupFile env) ∧
    atMostOneTerminalWrite (executeBackupStreaming senv) := by
  constructor
  · unfold executeBackupFile
    split_ifs with h1 h2 h3 h4 h5 h6 h7
    all_goals first
      | exact Or.inl rfl
      | exact Or.inr ⟨_, rfl, rfl⟩
      | exact fileBasedTail_amotw _ _
  · unfold executeBackupStreaming
    split_ifs
    all_goals first
      | exact Or.inl rfl
      | exact Or.inr ⟨_, rfl, rfl⟩
      | exact fileBasedTail_amotw _ _
      | (split <;> (try split_ifs) <;>
          first
            | exact Or.inl rfl
            | exact Or.inr ⟨_, rfl, rfl⟩
            | exact fileBasedTail_amotw _ _)

/-! ## C2 / C3 — terminal status versus sink success counts -/

theorem sinks_isEmpty_false (sinks : List Sink) (hne : sinks ≠ []) :
    sinks.isEmpty = false := by
  cases sinks with
  | nil => exact absurd rfl hne
  | cons a l => rfl

theorem goContains_someFailedMsg (sinks : List Sink) :
    goContains (someFailedMsg sinks) "partial upload failure" = true := by
  unfold someFailedMsg goContains
  simp only [String.data_append, List.append_assoc]
  exact charsContains_append_left _ _ (by decide)

theorem uploadErr_all_ok (sinks : List Sink) (hne : sinks ≠ [])
    (hall : sinkOkCount sinks = sinks.length) :
    (uploadToS3Providers sinks).err = none := by
  have hz : (sinkOkCount sinks == 0) = false := by
    have hpos : 0 < sinks.length := by
      cases sinks with
      | nil => exact absurd rfl hne
      | cons a l => simp
    simp only [beq_eq_false_iff_ne, ne_eq]
    omega
  have herr : (uploadErrors sinks).isEmpty = true := by
    rw [List.isEmpty_iff]
    exact (uploadErrors_nil_iff sinks).mpr hall
  unfold uploadToS3Providers
  simp [sinks_isEmpty_false sinks hne, hz, herr]

theorem uploadErr_someFailed (sinks : List Sink) (h0 : 0 < sinkOkCount sinks)
    (hlt : sinkOkCount sinks < sinks.length) :
    (uploadToS3Providers sinks).err = some (someFailedMsg sinks) := by
  have hne : sinks ≠ [] := by
    intro h
    subst h
    simp at hlt
  have hz : (sinkOkCount sinks == 0) = false := by
    simp only [beq_eq_false_iff_ne, ne_eq]
    omega
  have herr : (uploadErrors sinks).isEmpty = false := by
    cases hh : uploadErrors sinks with
    | nil =>
      have := (uploadErrors_nil_iff sinks).mp hh
      omega
    | cons e l => rfl
  unfold uploadToS3Providers
  simp [sinks_isEmpty_false sinks hne, hz, herr]

theorem uploadErr_all_failed (sinks : List Sink) (hne : sinks ≠ [])
    (h0 : sinkOkCount sinks = 0) :
    (uploadToS3Providers sinks).err = some (allFailedMsg sinks) := by
  unfold uploadToS3Providers
  simp [sinks_isEmpty_false sinks hne, h0]

theorem statusAfterUpload_of_none (fx : UploadFx) (h : fx.err = none) :
    statusAfterUpload fx = .success := by
  unfold statusAfterUpload
  rw [h]

/-- C2 amended: in file mode the status is `success` when all `N`
uploads succeed and `completed_with_errors` when `0 < k < N` succeed;
in streaming mode, however, once the dump and the first sink's
streamed upload succeed the status is `success` regardless of how the
remaining sinks' copies fare. -/
theorem upload_status_by_count :
    (∀ sinks : List Sink, sinks ≠ [] → sinkOkCount sinks = sinks.length →
        statusAfterUpload (uploadToS3Providers sinks) = .success) ∧
    (∀ sinks : List Sink, 0 < sinkOkCount sinks → sinkOkCount sinks < sinks.length →
        statusAfterUpload (uploadToS3Providers sinks) = .completedWithErrors) ∧
    (∀ (senv : StreamRunEnv) (first : Sink) (rest : List Sink),
        senv.sinks = first :: rest →
        senv.tunnelOk = true → senv.engine.streamable = true →
        senv.toolFound = true → senv.stdoutPipeOk = true → senv.stderrPipeOk = true →
        senv.startOk = true → senv.s3ClientOk = true → senv.dumpOk = true →
        first.isOk = true →
        executeBackupStreaming senv = { writes := [.success], fileDeleted := false }) := by
  refine ⟨fun sinks hne hall => ?_, fun sinks h0 hlt => ?_, ?_⟩
  · exact statusAfterUpload_of_none _ (uploadErr_all_ok sinks hne hall)
  · unfold statusAfterUpload
    rw [uploadErr_someFailed sinks h0 hlt]
    simp [goContains_someFailedMsg sinks]
  · intro senv first rest hs h1 h2 h3 h4 h5 h6 h7 h8 h9
    have hnm : (senv.engine == DBEngine.mongodb || senv.engine == DBEngine.redis) = false := by
      cases heng : senv.engine <;> simp_all [DBEngine.streamable]
    unfold executeBackupStreaming
    simp [hs, hnm, h1, h2, h3, h4, h5, h6, h7, h8, h9]

/-- C2 counterexample: a streaming run with two sinks where the first
streamed upload succeeds and the additional copy fails (`k = 1`,
`N = 2`) ends with status `success`, not `completed_with_errors`. -/
theorem upload_status_by_count_counterexample :
    sinkOkCount [{ id := "p1", name := "aws", upload := .ok "k1" },
                 { id := "p2", name := "bb", upload := .error "e" }] = 1 ∧
    ([{ id := "p1", name := "aws", upload := .ok "k1" },
      { id := "p2", name := "bb", upload := .error "e" }] : List Sink).length = 2 ∧
    executeBackupStreaming
        { tunnelOk := true,
          sinks := [{ id := "p1", name := "aws", upload := .ok "k1" },
                    { id := "p2", name := "bb", upload := .error "e" }],
          engine := .postgresql, toolFound := true, stdoutPipeOk := true,
          stderrPipeOk := true, startOk := true, s3ClientOk := true, dumpOk := true,
          fallbackStatOk := true, fallbackCfg := .resolved [] }
      = { writes := [.success], fileDeleted := false } ∧
    BStatus.success ≠ BStatus.completedWithErrors :=
  ⟨rfl, rfl, rfl, by decide⟩

/-- Witness for C2 at concrete sink lists (file mode, both counts) and
a concrete streaming run. -/
theorem upload_status_by_count_witness :
    statusAfterUpload (uploadToS3Providers
      [{ id := "p1", name := "aws", upload := .ok "k1" }]) = .success ∧
    statusAfterUpload (uploadToS3Providers
      [{ id := "p1", name := "aws", upload := .ok "k1" },
       { id := "p2", name := "bb", upload := .error "boom" }]) = .completedWithErrors ∧
    executeBackupStreaming
        { tunnelOk := true,
          sinks := [{ id := "p1", name := "aws", upload := .ok "k1" }],
          engine := .mysql, toolFound := true, stdoutPipeOk := true,
          stderrPipeOk := true, startOk := true, s3ClientOk := true, dumpOk := true,
          fallbackStatOk := true, fallbackCfg := .resolved [] }
      = { writes := [.success], fileDeleted := false } :=
  ⟨upload_status_by_count.1 _ (List.cons_ne_nil _ _) rfl,
   upload_status_by_count.2.1 _ (by decide) (by decide),
   upload_status_by_count.2.2 _ _ [] rfl rfl rfl rfl rfl rfl rfl rfl rfl rfl⟩

/-- C3 counterexample: a dump that succeeds and whose single sink
upload fails ends with status `completed_with_errors`, not `failed`. -/
theorem allfail_status_counterexample :
    sinkOkCount
      [{ id := "p1", name := "aws",
         upload := .error "Failed to upload to aws: connection refused" }] = 0 ∧
    rowStatus (executeBackupFile
        { tunnelOk := true, engine := .postgresql, toolFound := true, stdoutPipeOk := true,
          stderrPipeOk := true, startOk := true, dumpOk := true, statOk := true,
          cfg := .resolved
            [{ id := "p1", name := "aws",
               upload := .error "Failed to upload to aws: connection refused" }] })
      = .completedWithErrors ∧
    BStatus.completedWithErrors ≠ BStatus.failed :=
  ⟨rfl, by decide, by decide⟩

/-- C3 amended: after a successful dump, if every sink upload fails
(`k = 0`, `N > 0`) the terminal status is `completed_with_errors` (not
`failed`), provided the concatenated error text does not happen to
contain one of the two sentinel substrings the status dispatch matches
on. -/
theorem allfail_status_amended (env : FileRunEnv) (sinks : List Sink)
    (hcfg : env.cfg = .resolved sinks) (hne : sinks ≠ [])
    (h0 : sinkOkCount sinks = 0)
    (hp : goContains (allFailedMsg sinks) "partial upload failure" = false)
    (hnp : goContains (allFailedMsg sinks) "No S3 providers configured" = false)
    (h1 : env.tunnelOk = true) (h2 : env.engine.supported = true)
    (h3 : env.toolFound = true) (h4 : env.stdoutPipeOk = true)
    (h5 : env.stderrPipeOk = true) (h6 : env.startOk = true)
    (h7 : env.dumpOk = true) (h8 : env.statOk = true) :
    rowStatus (executeBackupFile env) = .completedWithErrors := by
  simp only [executeBackupFile, h1, h2, h3, h4, h5, h6, h7, h8, Bool.not_true,
    Bool.false_eq_true, if_false]
  unfold fileBasedTail
  simp only [h8, Bool.not_true, Bool.false_eq_true, if_false]
  show rowStatus { writes := [statusAfterUpload (runUpload env.cfg)], fileDeleted := _ } = _
  have hstat : statusAfterUpload (runUpload env.cfg) = .completedWithErrors := by
    rw [hcfg]
    show statusAfterUpload (uploadToS3Providers sinks) = _
    unfold statusAfterUpload
    rw [uploadErr_all_failed sinks hne h0]
    simp [hp, hnp]
  rw [hstat]
  rfl

/-- Witness for C3 at a distinct concrete failing sink. -/
theorem allfail_status_amended_witness :
    rowStatus (executeBackupFile
        { tunnelOk := true, engine := .mysql, toolFound := true, stdoutPipeOk := true,
          stderrPipeOk := true, startOk := true, dumpOk := true, statOk := true,
          cfg := .resolved
            [{ id := "p2", name := "minio",
               upload := .error "Failed to upload to minio: connection reset" }] })
      = .completedWithErrors :=
  allfail_status_amended _ _ rfl (List.cons_ne_nil _ _) rfl (by decide) (by decide)
    rfl rfl rfl rfl rfl rfl rfl rfl

/-! ## C6 — share token resolution and access counting -/

theorem getD_map_of_lt {α β : Type _} (f : α → β) (l : List α) (i : Nat) (d : β) (dflt : α)
    (h : i < l.length) : (l.map f).getD i d = f (l.getD i dflt) := by
  induction l generalizing i with
  | nil => simp at h
  | cons a as ih =>
    cases i with
    | zero => rfl
    | succ j =>
      simp only [List.map_cons, List.getD_cons_succ]
      exact ih j (by simpa using h)

theorem resolveStep_facts (st : List ShareRow) (c : String × Nat) (i : Nat) (dflt : ShareRow)
    (h : i < st.length) :
    (resolveStep st c).length = st.length ∧
    ((resolveStep st c).getD i dflt).token = (st.getD i dflt).token ∧
    ((resolveStep st c).getD i dflt).accessCount
      = (st.getD i dflt).accessCount
        + (if c.1 = (st.getD i dflt).token ∧ resolveOk st c then 1 else 0) := by
  unfold resolveStep resolveOk getShareableLink
  cases hf : findLink st c.1 with
  | none => simp [hf]
  | some r =>
    by_cases hexp : r.expiresAt < c.2
    · simp [hf, hexp]
    · refine ⟨by simp [hf, hexp], ?_, ?_⟩
      · simp only [hf, hexp, if_false]
        rw [getD_map_of_lt _ st i dflt dflt h]
        by_cases ht : (st.getD i dflt).token = c.1
        · rw [if_pos ht]
        · rw [if_neg ht]
      · simp only [hf, hexp, if_false]
        rw [getD_map_of_lt _ st i dflt dflt h]
        by_cases ht : (st.getD i dflt).token = c.1
        · rw [if_pos ht, if_pos ⟨ht.symm, trivial⟩]
        · rw [if_neg ht, if_neg ?hneg, Nat.add_zero]
          case hneg =>
            rintro ⟨hh, -⟩
            exact ht hh.symm

theorem runResolves_facts (calls : List (String × Nat)) :
    ∀ (st : List ShareRow) (i : Nat) (dflt : ShareRow), i < st.length →
      (runResolves st calls).length = st.length ∧
      ((runResolves st calls).getD i dflt).token = (st.getD i dflt).token ∧
      ((runResolves st calls).getD i dflt).accessCount
        = (st.getD i dflt).accessCount + okResolveCount st (st.getD i dflt).token calls := by
  induction calls with
  | nil =>
    intro st i dflt h
    exact ⟨rfl, rfl, by simp [okResolveCount, runResolves]⟩
  | cons c rest ih =>
    intro st i dflt h
    obtain ⟨hlen, htok, hacc⟩ := resolveStep_facts st c i dflt h
    have h2 : i < (resolveStep st c).length := by rw [hlen]; exact h
    obtain ⟨ihlen, ihtok, ihacc⟩ := ih (resolveStep st c) i dflt h2
    refine ⟨?_, ?_, ?_⟩
    · show (runResolves (resolveStep st c) rest).length = st.length
      rw [ihlen, hlen]
    · show ((runResolves (resolveStep st c) rest).getD i dflt).token = _
      rw [ihtok, htok]
    · show ((runResolves (resolveStep st c) rest).getD i dflt).accessCount = _
      rw [ihacc, htok, hacc]
      show _ = (st.getD i dflt).accessCount + okResolveCount st (st.getD i dflt).token (c :: rest)
      simp only [okResolveCount]
      omega

/-- C6: resolving a share token fails for an unknown token and for an
expired one, leaving the store unchanged; a successful resolve returns
the stored `(backupId, providerId)` and increments that token's
`accessCount` by exactly one; hence over any call sequence each row's
`accessCount` equals its initial value plus the number of successful
resolves of its token. -/
theorem resolveShare_spec :
    (∀ (now : Nat) (st : List ShareRow) (tok : String), findLink st tok = none →
        getShareableLink now st tok = (.error "sql: no rows in result set", st)) ∧
    (∀ (now : Nat) (st : List ShareRow) (tok : String) (r : ShareRow),
        findLink st tok = some r → r.expiresAt < now →
        getShareableLink now st tok = (.error "link has expired", st)) ∧
    (∀ (now : Nat) (st : List ShareRow) (tok : String) (r : ShareRow),
        findLink st tok = some r → ¬ r.expiresAt < now →
        (getShareableLink now st tok).1 = .ok (r.backupId, r.providerId) ∧
        (∀ (i : Nat) (dflt : ShareRow), i < st.length →
          ((getShareableLink now st tok).2.getD i dflt).accessCount
            = (st.getD i dflt).accessCount
              + (if (st.getD i dflt).token = tok then 1 else 0))) ∧
    (∀ (calls : List (String × Nat)) (st : List ShareRow) (i : Nat) (dflt : ShareRow),
        i < st.length →
        ((runResolves st calls).getD i dflt).accessCount
          = (st.getD i dflt).accessCount + okResolveCount st (st.getD i dflt).token calls) := by
  refine ⟨?_, ?_, ?_, ?_⟩
  · intro now st tok hf
    unfold getShareableLink
    rw [hf]
  · intro now st tok r hf hexp
    unfold getShareableLink
    rw [hf]
    simp [hexp]
  · intro now st tok r hf hexp
    constructor
    · unfold getShareableLink
      rw [hf]
      simp [hexp]
    · intro i dflt h
      unfold getShareableLink
      rw [hf]
      simp only [hexp, if_false]
      rw [getD_map_of_lt _ st i dflt dflt h]
      by_cases ht : (st.getD i dflt).token = tok
      · rw [if_pos ht, if_pos ht]
      · rw [if_neg ht, if_neg ht, Nat.add_zero]
  · intro calls st i dflt h
    exact (runResolves_facts calls st i dflt h).2.2

/-- Witness for C6: one row, three resolves — valid, expired, unknown
token — the final access count is exactly the one success. -/
theorem resolveShare_spec_witness :
    ((runResolves [{ token := "tok", backupId := "b1", providerId := "p1",
                     expiresAt := 100, accessCount := 0 }]
        [("tok", 50), ("tok", 200), ("bad", 10)]).getD 0
      { token := "", backupId := "", providerId := "", expiresAt := 0, accessCount := 0 }
      ).accessCount = 1 :=
  Eq.trans
    (resolveShare_spec.2.2.2 [("tok", 50), ("tok", 200), ("bad", 10)]
      [{ token := "tok", backupId := "b1", providerId := "p1",
         expiresAt := 100, accessCount := 0 }] 0
      { token := "", backupId := "", providerId := "", expiresAt := 0, accessCount := 0 }
      (by decide))
    (by decide)

/-! ## C8 — at most one default provider per owner -/

theorem map_eq_self_of (st : List ProvRow) (f : ProvRow → ProvRow)
    (h : ∀ p ∈ st, f p = p) : st.map f = st := by
  induction st with
  | nil => rfl
  | cons a l ih =>
    simp only [List.map_cons, h a (by simp)]
    rw [ih fun p hp => h p (by simp [hp])]

theorem length_filter_cons_val {α : Type _} (p : α → Bool) (a : α) (l : List α) :
    (List.filter p (a :: l)).length
      = (if p a = true then 1 else 0) + (List.filter p l).length := by
  rw [List.filter_cons]
  by_cases h : p a = true
  · simp [h]
    omega
  · simp [h]

theorem count_zero {α : Type _} (g : α → α) (p : α → Bool) (l : List α)
    (h : ∀ a, p (g a) = false) :
    (List.filter p (l.map g)).length = 0 := by
  induction l with
  | nil => rfl
  | cons a t ih =>
    rw [List.map_cons, length_filter_cons_val, h a, ih]
    simp

theorem count_eq {α : Type _} (g : α → α) (p : α → Bool) (l : List α)
    (h : ∀ a, p (g a) = p a) :
    (List.filter p (l.map g)).length = (List.filter p l).length := by
  induction l with
  | nil => rfl
  | cons a t ih =>
    rw [List.map_cons, length_filter_cons_val, length_filter_cons_val, h a, ih]

theorem count_le {α : Type _} (g : α → α) (p : α → Bool) (l : List α)
    (h : ∀ a, (if p (g a) = true then 1 else 0) ≤ (if p a = true then 1 else 0)) :
    (List.filter p (l.map g)).length ≤ (List.filter p l).length := by
  induction l with
  | nil => exact Nat.le_refl _
  | cons a t ih =>
    rw [List.map_cons, length_filter_cons_val, length_filter_cons_val]
    have := h a
    omega

theorem count_bound {α : Type _} (g : α → α) (p q : α → Bool) (l : List α)
    (h : ∀ a, (if p (g a) = true then 1 else 0)
          ≤ (if p a = true then 1 else 0) + (if q a = true then 1 else 0)) :
    (List.filter p (l.map g)).length
      ≤ (List.filter p l).length + (List.filter q l).length := by
  induction l with
  | nil => exact Nat.le_refl _
  | cons a t ih =>
    rw [List.map_cons, length_filter_cons_val, length_filter_cons_val,
      length_filter_cons_val]
    have := h a
    omega

theorem map_id_over (g : ProvRow → ProvRow) (l : List ProvRow)
    (h : ∀ a, (g a).id = a.id) :
    (l.map g).map ProvRow.id = l.map ProvRow.id := by
  rw [List.map_map]
  exact List.map_congr_left fun a _ => h a

theorem ids_clearDefaults (st : List ProvRow) (u : String) :
    (clearDefaults st u).map ProvRow.id = st.map ProvRow.id := by
  unfold clearDefaults
  apply map_id_over
  intro a
  by_cases hpu : a.userId = u <;> simp [hpu]

theorem ids_setFlagOn (st : List ProvRow) (pid u : String) (b : Bool) :
    (setFlagOn pid u b st).map ProvRow.id = st.map ProvRow.id := by
  unfold setFlagOn
  apply map_id_over
  intro a
  by_cases hc : a.id = pid ∧ a.userId = u <;> simp [hc]

theorem ids_setDefaultProvider (st : List ProvRow) (u pid : String) :
    (setDefaultProvider st u pid).map ProvRow.id = st.map ProvRow.id := by
  unfold setDefaultProvider
  rw [ids_setFlagOn, ids_clearDefaults]

theorem countPid_clearDefaults (st : List ProvRow) (u pid : String) :
    countPid (clearDefaults st u) pid = countPid st pid := by
  unfold countPid
  rw [ids_clearDefaults]

theorem countPid_setDefaultProvider (st : List ProvRow) (u pid q : String) :
    countPid (setDefaultProvider st u pid) q = countPid st q := by
  unfold countPid
  rw [ids_setDefaultProvider]

theorem countPid_as_filter (st : List ProvRow) (pid : String) :
    countPid st pid = (st.filter fun a => a.id = pid).length := by
  unfold countPid
  rw [List.filter_map, List.length_map]
  rfl

theorem filter_eq_length_le_one {l : List String} (h : l.Nodup) (pid : String) :
    (l.filter fun x => x = pid).length ≤ 1 := by
  induction l with
  | nil => simp
  | cons a as ih =>
    rw [List.filter_cons]
    by_cases ha : a = pid
    · subst ha
      have hnotin : a ∉ as := (List.nodup_cons.mp h).1
      have hz : (as.filter fun x => x = a) = [] := by
        rw [List.filter_eq_nil_iff]
        intro x hx
        simp only [decide_eq_true_eq]
        intro hxa
        exact hnotin (hxa ▸ hx)
      simp [hz]
    · have hd : (decide (a = pid)) = false := by simp [ha]
      rw [hd]
      simp only [Bool.false_eq_true, if_false]
      exact ih (List.nodup_cons.mp h).2

theorem countPid_le_one (st : List ProvRow) (h : (st.map ProvRow.id).Nodup) (pid : String) :
    countPid st pid ≤ 1 :=
  filter_eq_length_le_one h pid

theorem countPid_empty_id (st : List ProvRow) (h : "" ∉ st.map ProvRow.id) :
    countPid st "" = 0 := by
  unfold countPid
  rw [List.length_eq_zero, List.filter_eq_nil_iff]
  intro x hx
  simp only [decide_eq_true_eq]
  intro hxe
  exact h (hxe ▸ hx)

theorem dc_clear_self (st : List ProvRow) (u : String) :
    defaultCount (clearDefaults st u) u = 0 := by
  unfold defaultCount clearDefaults
  apply count_zero
  intro a
  by_cases hpu : a.userId = u <;> simp [hpu]

theorem dc_clear_other (st : List ProvRow) (u v : String) (hvu : v ≠ u) :
    defaultCount (clearDefaults st u) v = defaultCount st v := by
  unfold defaultCount clearDefaults
  apply count_eq
  intro a
  by_cases hpu : a.userId = u
  · have hpv : ¬ a.userId = v := by rw [hpu]; exact fun hh => hvu hh.symm
    have huv : ¬ u = v := fun hh => hvu hh.symm
    simp [hpu, hpv, huv]
  · simp [hpu]

theorem dc_setFlagOn_other (st : List ProvRow) (pid u : String) (b : Bool) (v : String)
    (hvu : v ≠ u) : defaultCount (setFlagOn pid u b st) v = defaultCount st v := by
  unfold defaultCount setFlagOn
  apply count_eq
  intro a
  by_cases hc : a.id = pid ∧ a.userId = u
  · have hpv : ¬ a.userId = v := by rw [hc.2]; exact fun hh => hvu hh.symm
    have huv : ¬ u = v := fun hh => hvu hh.symm
    simp [hc, hpv, huv]
  · simp [hc]

theorem dc_setFlagOn_false_le (st : List ProvRow) (pid u : String) :
    defaultCount (setFlagOn pid u false st) u ≤ defaultCount st u := by
  unfold defaultCount setFlagOn
  apply count_le
  intro a
  by_cases hc : a.id = pid ∧ a.userId = u
  · simp [hc]
  · simp [hc]

theorem dc_setFlagOn_true_le (st : List ProvRow) (pid u : String) :
    defaultCount (setFlagOn pid u true st) u ≤ defaultCount st u + countPid st pid := by
  rw [countPid_as_filter]
  unfold defaultCount setFlagOn
  apply count_bound
  intro a
  by_cases hc : a.id = pid ∧ a.userId = u
  · simp [hc, hc.1]
  · by_cases hd : (decide (a.userId = u ∧ a.isDefault = true)) = true <;> simp [hc, hd]

theorem dc_append (a b : List ProvRow) (u : String) :
    defaultCount (a ++ b) u = defaultCount a u + defaultCount b u := by
  unfold defaultCount
  rw [List.filter_append, List.length_append]

theorem dc_setDefaultProvider_self (st : List ProvRow) (u pid : String) :
    defaultCount (setDefaultProvider st u pid) u ≤ countPid st pid := by
  unfold setDefaultProvider
  have h1 := dc_setFlagOn_true_le (clearDefaults st u) pid u
  rw [dc_clear_self, countPid_clearDefaults] at h1
  simpa using h1

theorem dc_setDefaultProvider_empty (st : List ProvRow) (u : String)
    (he : "" ∉ st.map ProvRow.id) :
    defaultCount (setDefaultProvider st u "") u = 0 := by
  have h1 := dc_setDefaultProvider_self st u ""
  rw [countPid_empty_id st he] at h1
  omega

theorem setFlagOn_self (st : List ProvRow) (pid u : String) (existing : ProvRow)
    (hn : (st.map ProvRow.id).Nodup) (hmem : existing ∈ st)
    (hpid : existing.id = pid) (huser : existing.userId = u) :
    setFlagOn pid u existing.isDefault st = st := by
  unfold setFlagOn
  apply map_eq_self_of
  intro p hp
  by_cases hc : p.id = pid ∧ p.userId = u
  · rw [if_pos hc]
    have hpe : p = existing :=
      List.inj_on_of_nodup_map hn hp hmem (by rw [hc.1, hpid])
    subst hpe
    rfl
  · rw [if_neg hc]

theorem setFlagOn_self2 (st : List ProvRow) (pid u : String) (existing : ProvRow)
    (hn : (st.map ProvRow.id).Nodup) (hmem : existing ∈ st)
    (hpid : existing.id = pid) (huser : existing.userId = u)
    (b : Bool) (hb : existing.isDefault = b) :
    setFlagOn pid u b st = st := by
  subst hb
  exact setFlagOn_self st pid u existing hn hmem hpid huser

theorem wf_setDefault (st : List ProvRow) (hw : ProvTableWf st) (u pid : String) :
    ProvTableWf (setDefaultProvider st u pid) := by
  obtain ⟨hn, he, hd⟩ := hw
  refine ⟨?_, ?_, ?_⟩
  · rw [ids_setDefaultProvider]; exact hn
  · rw [ids_setDefaultProvider]; exact he
  · intro v
    by_cases hvu : v = u
    · subst hvu
      calc defaultCount (setDefaultProvider st v pid) v
          ≤ countPid st pid := dc_setDefaultProvider_self st v pid
        _ ≤ 1 := countPid_le_one st hn pid
    · unfold setDefaultProvider
      rw [dc_setFlagOn_other _ _ _ _ _ hvu, dc_clear_other _ _ _ hvu]
      exact hd v

theorem dc_singleton (row : ProvRow) (v : String) :
    defaultCount [row] v = if row.userId = v ∧ row.isDefault = true then 1 else 0 := by
  unfold defaultCount
  rw [show ([row] : List ProvRow) = row :: [] from rfl, length_filter_cons_val]
  by_cases hc : row.userId = v ∧ row.isDefault = true <;> simp [hc]

theorem wf_append_row (st : List ProvRow) (hn : (st.map ProvRow.id).Nodup)
    (he : "" ∉ st.map ProvRow.id)
    (row : ProvRow) (hidne : row.id ≠ "") (hnotmem : row.id ∉ st.map ProvRow.id)
    (hrow : ∀ v, defaultCount st v + defaultCount [row] v ≤ 1) :
    ProvTableWf (st ++ [row]) := by
  refine ⟨?_, ?_, ?_⟩
  · rw [List.map_append]
    rw [List.nodup_append]
    refine ⟨hn, by simp, ?_⟩
    intro a ha hb
    simp only [List.map_cons, List.map_nil, List.mem_singleton] at hb
    subst hb
    exact hnotmem ha
  · rw [List.map_append, List.mem_append]
    rintro (h1 | h2)
    · exact he h1
    · simp only [List.map_cons, List.map_nil, List.mem_singleton] at h2
      exact hidne h2.symm
  · intro v
    rw [dc_append]
    exact hrow v

theorem wf_create (st : List ProvRow) (hw : ProvTableWf st) (u newId : String)
    (isDefault : Bool) (hid : newId ≠ "") :
    ProvTableWf (createS3Provider st u newId isDefault) := by
  obtain ⟨hn, he, hd⟩ := hw
  unfold createS3Provider
  by_cases hdef : isDefault = true
  · subst hdef
    simp only [if_true]
    have hids : (setDefaultProvider st u "").map ProvRow.id = st.map ProvRow.id :=
      ids_setDefaultProvider st u ""
    have hn1 : ((setDefaultProvider st u "").map ProvRow.id).Nodup := by rw [hids]; exact hn
    have he1 : "" ∉ (setDefaultProvider st u "").map ProvRow.id := by rw [hids]; exact he
    have hd1 : ∀ v, defaultCount (setDefaultProvider st u "") v ≤ 1 :=
      fun v => (wf_setDefault st ⟨hn, he, hd⟩ u "").2.2 v
    have hdu : defaultCount (setDefaultProvider st u "") u = 0 :=
      dc_setDefaultProvider_empty st u he
    by_cases hmem : newId ∈ (setDefaultProvider st u "").map ProvRow.id
    · rw [if_pos hmem]
      exact ⟨hn1, he1, hd1⟩
    · rw [if_neg hmem]
      apply wf_append_row _ hn1 he1 _ hid hmem
      intro v
      rw [dc_singleton]
      by_cases hvu : u = v
      · subst hvu
        rw [if_pos ⟨rfl, rfl⟩, hdu]
      · rw [if_neg (fun hh => hvu hh.1)]
        have := hd1 v
        omega
  · rw [Bool.not_eq_true] at hdef
    subst hdef
    simp only [Bool.false_eq_true, if_false]
    by_cases hmem : newId ∈ st.map ProvRow.id
    · rw [if_pos hmem]
      exact ⟨hn, he, hd⟩
    · rw [if_neg hmem]
      apply wf_append_row _ hn he _ hid hmem
      intro v
      rw [dc_singleton]
      rw [if_neg (fun hh => by exact absurd hh.2 (by simp))]
      have := hd v
      omega

theorem wf_update (st : List ProvRow) (hw : ProvTableWf st) (u pid : String)
    (reqDefault : Option Bool) :
    ProvTableWf (updateS3Provider st u pid reqDefault) := by
  obtain ⟨hn, he, hd⟩ := hw
  unfold updateS3Provider
  cases hfind : st.find? (fun p => decide (p.id = pid ∧ p.userId = u)) with
  | none => exact ⟨hn, he, hd⟩
  | some existing =>
    have hmem : existing ∈ st := List.mem_of_find?_eq_some hfind
    have hprop : existing.id = pid ∧ existing.userId = u := by
      have hh := List.find?_some hfind
      simpa using hh
    cases reqDefault with
    | none =>
      simp only
      rw [setFlagOn_self st pid u existing hn hmem hprop.1 hprop.2]
      exact ⟨hn, he, hd⟩
    | some d =>
      by_cases hdt : d = true
      · subst hdt
        show ProvTableWf (setFlagOn pid u true
          (if true = true ∧ (!existing.isDefault) = true then setDefaultProvider st u "" else st))
        by_cases hext : existing.isDefault = true
        · rw [if_neg (by simp [hext])]
          rw [setFlagOn_self2 st pid u existing hn hmem hprop.1 hprop.2 true hext]
          exact ⟨hn, he, hd⟩
        · rw [if_pos ⟨rfl, by simp [hext]⟩]
          refine ⟨?_, ?_, ?_⟩
          · rw [ids_setFlagOn, ids_setDefaultProvider]; exact hn
          · rw [ids_setFlagOn, ids_setDefaultProvider]; exact he
          · intro v
            by_cases hvu : v = u
            · subst hvu
              have h1 := dc_setFlagOn_true_le (setDefaultProvider st v "") pid v
              rw [dc_setDefaultProvider_empty st v he,
                countPid_setDefaultProvider st v "" pid] at h1
              have h3 := countPid_le_one st hn pid
              omega
            · rw [dc_setFlagOn_other _ _ _ _ _ hvu]
              exact (wf_setDefault st ⟨hn, he, hd⟩ u "").2.2 v
      · rw [Bool.not_eq_true] at hdt
        subst hdt
        show ProvTableWf (setFlagOn pid u false
          (if false = true ∧ (!existing.isDefault) = true then setDefaultProvider st u "" else st))
        rw [if_neg (by simp : ¬(false = true ∧ (!existing.isDefault) = true))]
        refine ⟨?_, ?_, ?_⟩
        · rw [ids_setFlagOn]; exact hn
        · rw [ids_setFlagOn]; exact he
        · intro v
          by_cases hvu : v = u
          · subst hvu
            have h1 := dc_setFlagOn_false_le st pid v
            have h2 := hd v
            omega
          · rw [dc_setFlagOn_other _ _ _ _ _ hvu]
            exact hd v

theorem wf_applyProvOp (st : List ProvRow) (hw : ProvTableWf st) (op : ProvOp)
    (hop : op.wf) : ProvTableWf (applyProvOp st op) := by
  cases op with
  | create u newId isDefault => exact wf_create st hw u newId isDefault hop
  | update u pid reqDefault => exact wf_update st hw u pid reqDefault
  | setDefault u pid => exact wf_setDefault st hw u pid

/-- C8: starting from an empty provider table, any sequence of
create / update / set-default operations (with uuid ids, i.e. never the
empty string) keeps the table well-formed — in particular at most one
provider per owner has `is_default = true` at every point. -/
theorem provider_default_unique (ops : List ProvOp) (hwf : ProvOpsWf ops) :
    ProvTableWf (ops.foldl applyProvOp []) := by
  have hbase : ProvTableWf [] :=
    ⟨List.nodup_nil, by simp, fun u => by simp [defaultCount]⟩
  suffices h : ∀ (l : List ProvOp) (st : List ProvRow), ProvTableWf st →
      (∀ op ∈ l, op.wf) → ProvTableWf (l.foldl applyProvOp st) by
    exact h ops [] hbase hwf
  intro l
  induction l with
  | nil => intro st hst _; exact hst
  | cons op rest ih =>
    intro st hst hops
    exact ih (applyProvOp st op) (wf_applyProvOp st hst op (hops op (by simp)))
      (fun o ho => hops o (by simp [ho]))

/-- Witness for C8: two creates marked default, an explicit
set-default and an update marking default, on one owner. -/
theorem provider_default_unique_witness :
    ProvTableWf (([.create "u1" "id1" true, .create "u1" "id2" true,
                   .setDefault "u1" "id1", .update "u1" "id2" (some true)] :
        List ProvOp).foldl applyProvOp []) :=
  provider_default_unique _ (by
    intro op hop
    fin_cases hop <;> simp only [ProvOp.wf] <;> decide)

end Velld
